import Mathlib

/-!
Shallow embedding of the oBCC cache reader from `lib/bcc/CacheReader.cpp`
(Android libbcc).  The reader opens a candidate cache file, validates it
through a fixed pipeline of checks, and returns a loaded artifact only when
every check passes.  Machine-dependent constants (`sizeof(...)`, the page
size, `BCC_CONTEXT_SIZE`, `sizeof(OBCC_Header)`) are parameters of the
embedding; file bytes and section records are modelled at the level of the
parsed structures the code casts its buffers to; every out-of-bounds read the
C++ code can perform (undefined behaviour) is modelled by an explicit
unspecified "junk" value carried in the model.
-/

namespace BccCache

/-- Runtime machine parameters of the host the reader runs on:
native endianness (`checkMachineIntType` probes it with `0x00000001`),
`sizeof(off_t)`, `sizeof(size_t)`, `sizeof(void *)`, `sizeof(int)`,
`sysconf(_SC_PAGESIZE)`, `sizeof(OBCC_Header)`, and `BCC_CONTEXT_SIZE`. -/
structure Machine where
  isLittleEndian : Bool
  sizeofOffT : Nat
  sizeofSizeT : Nat
  sizeofPtr : Nat
  sizeofInt : Nat
  pagesize : Nat
  sizeofHeader : Nat
  contextSize : Nat
deriving Repr, DecidableEq

/-- Modelled from the spec: the fixed-layout `OBCC_Header` record of
`bcc/bcc_cache.h`, which is not among the sources; the field names follow
their uses in `CacheReader.cpp` and the field list follows the spec's
external-interface table (magic, version, endianness tag, three machine
word-size fields, context load address / offset / parity checksum, and an
(offset, size) pair per section).  Byte strings are lists of byte values. -/
structure OBCC_Header where
  magic : List Nat
  version : List Nat
  endianness : Nat
  sizeof_off_t : Nat
  sizeof_size_t : Nat
  sizeof_ptr_t : Nat
  context_cached_addr : Nat
  context_offset : Nat
  context_parity_checksum : Nat
  str_pool_offset : Nat
  str_pool_size : Nat
  depend_tab_offset : Nat
  depend_tab_size : Nat
  reloc_tab_offset : Nat
  reloc_tab_size : Nat
  export_var_list_offset : Nat
  export_var_list_size : Nat
  export_func_list_offset : Nat
  export_func_list_size : Nat
  pragma_list_offset : Nat
  pragma_list_size : Nat
  func_table_offset : Nat
  func_table_size : Nat
deriving Repr, DecidableEq

/-- Modelled from the spec: the `OBCC_MAGIC` literal of `bcc_cache.h` (not in
the sources); the spec's concrete scenario gives `magic = "oBCC"`. -/
def OBCC_MAGIC : List Nat := [111, 66, 67, 67]

/-- Modelled from the spec: the `OBCC_VERSION` literal of `bcc_cache.h` (not
in the sources); the spec's concrete scenario gives `version = "001\x00"`. -/
def OBCC_VERSION : List Nat := [48, 48, 49, 0]

/-- One string-pool entry: an `(offset, length)` pair into the pool blob
(`OBCC_StringPool::list[i]`, layout per the spec's external-interface
section). -/
structure OBCC_StringPoolEntry where
  offset : Nat
  length : Nat
deriving Repr, DecidableEq

/-- The string-pool section after `readStringPool` has run: the entry list
(`list[0 .. count)`), the raw section bytes the entry offsets point into, and
the two unspecified values produced by reads the C++ code performs without a
bounds check (undefined behaviour): `junkByte` is the value of a byte read
outside `bytes`, `junkStr` the string obtained through an out-of-range index
into the materialized `mStringPool` vector. -/
structure StrPool where
  entries : List OBCC_StringPoolEntry
  bytes : List Nat
  junkByte : Nat
  junkStr : List Nat
deriving Repr, DecidableEq

/-- Byte of the string-pool section at offset `i` (`str_base[i]`); reads past
the section yield the model's unspecified junk byte. -/
def byteAt (p : StrPool) (i : Nat) : Nat :=
  p.bytes.getD i p.junkByte

/-- The C string starting at offset `o` of the pool blob: the bytes up to the
first `\0` (this is what `str_base + offset` denotes wherever the code
compares or stores pool strings). -/
def cstrFrom (p : StrPool) (o : Nat) : List Nat :=
  (p.bytes.drop o).takeWhile (fun b => b != 0)

/-- Resolution `mStringPool[i]` as a string: `readStringPool` pushes
`str_base + list[i].offset` for each `i < count`; an out-of-range `i` is an
unchecked `std::vector::operator[]` access (undefined behaviour), modelled by
the unspecified `junkStr`. -/
def strAt (p : StrPool) (i : Nat) : List Nat :=
  match p.entries.get? i with
  | some en => cstrFrom p en.offset
  | none => p.junkStr

/-- The terminator test of `checkStringPool` for one entry:
`pool[i][poolR->list[i].length] != '\0'`, i.e. the section byte at
`offset + length` is not 0. -/
def poolEntryBad (p : StrPool) (en : OBCC_StringPoolEntry) : Bool :=
  !(byteAt p (en.offset + en.length) == 0)

/-- The loop of `CacheReader::checkStringPool`, with the running index made
explicit: returns the index of the first entry whose terminator byte is not
`'\0'` (the index the code logs before returning `false`), or `none` when
every entry is properly terminated. -/
def checkStringPoolFrom (p : StrPool) (i : Nat) : List OBCC_StringPoolEntry → Option Nat
  | [] => none
  | en :: rest =>
    if poolEntryBad p en then some i else checkStringPoolFrom p (i + 1) rest

/-- The index reported by `checkStringPool` on failure. -/
def checkStringPoolReport (p : StrPool) : Option Nat :=
  checkStringPoolFrom p 0 p.entries

/-- Check `CacheReader::checkStringPool`: succeeds iff no entry has a bad
terminator byte. -/
def checkStringPool (p : StrPool) : Bool :=
  (checkStringPoolReport p).isNone

/-- One record of the dependency table (`OBCC_Dependency`): a string-pool
index for the resource name, a resource type tag, and a 20-byte SHA-1
fingerprint. -/
structure OBCC_Dependency where
  res_name_strp_index : Nat
  res_type : Nat
  sha1 : List Nat
deriving Repr, DecidableEq

/-- The three per-record comparisons of `CacheReader::checkDependency`, in
the code's order: resolved name vs `dep->first` (exact string equality),
`memcmp(depSHA1, depCachedSHA1, 20)`, and the type tag.  `exp` is one entry
of the caller's `mDependencies` map: `(name, (type, sha1))`. -/
def depMatches (pool : StrPool) (exp : List Nat × Nat × List Nat)
    (c : OBCC_Dependency) : Bool :=
  if strAt pool c.res_name_strp_index ≠ exp.1 then false
  else if c.sha1.take 20 ≠ exp.2.2.take 20 then false
  else if c.res_type ≠ exp.2.1 then false
  else true

/-- Verifier `CacheReader::checkDependency`: requires
`mDependencies.size() == mpCachedDependTable->count`, then walks the caller's
map (in its ascending-name iteration order, modelled by the order of
`expected`) and the cached table in lock-step, failing on the first record
whose name, fingerprint, or type disagrees. -/
def checkDependency (pool : StrPool) (expected : List (List Nat × Nat × List Nat))
    (table : List OBCC_Dependency) : Bool :=
  if expected.length ≠ table.length then false
  else (expected.zip table).all (fun pr => depMatches pool pr.1 pr.2)

/-- One record of the pragma list (`OBCC_Pragma`): string-pool indices for
key and value. -/
structure OBCC_Pragma where
  key_strp_index : Nat
  value_strp_index : Nat
deriving Repr, DecidableEq

/-- One record of the function table (`OBCC_FuncInfo`): a string-pool index
for the name, the cached load address, and the byte size. -/
structure OBCC_FuncInfo where
  name_strp_index : Nat
  cached_addr : Nat
  size : Nat
deriving Repr, DecidableEq

/-- The pragma pairs materialized by `CacheReader::readPragmaList`:
`(strPool[key_strp_index], strPool[value_strp_index])` for every record, with
no validation of either index. -/
def buildPragmas (pool : StrPool) (l : List OBCC_Pragma) : List (List Nat × List Nat) :=
  l.map (fun pr => (strAt pool pr.key_strp_index, strAt pool pr.value_strp_index))

/-- Insertion `std::map<...>::insert`: inserts `kv` only when its key is not already
present (C++ semantics: `insert` never overwrites an existing mapping).  The
map is modelled as an association list with unique keys; `lookup` agrees with
`std::map::find` on such lists regardless of key order. -/
def stdMapInsert (m : List (List Nat × Nat × Nat)) (kv : List Nat × Nat × Nat) :
    List (List Nat × Nat × Nat) :=
  if (m.lookup kv.1).isSome then m else m ++ [kv]

/-- The function map built by `CacheReader::readFuncTable`: for each record,
`table.insert(make_pair(strPool[func->name_strp_index],
make_pair(func->cached_addr, func->size)))`, with no validation of the
index. -/
def buildFuncTable (pool : StrPool) (records : List OBCC_FuncInfo) :
    List (List Nat × Nat × Nat) :=
  records.foldl
    (fun m r => stdMapInsert m (strAt pool r.name_strp_index, r.cached_addr, r.size)) []

/-- Check `CacheReader::checkFileSize`: fails when `fstat` fails, or when the file
is shorter than `sizeof(OBCC_Header)` or shorter than `BCC_CONTEXT_SIZE`. -/
def checkFileSize (m : Machine) (statOk : Bool) (fileSize : Nat) : Bool :=
  if statOk = false then false
  else if fileSize < m.sizeofHeader ∨ fileSize < m.contextSize then false
  else true

/-- Check `CacheReader::checkHeader`: `memcmp(magic, OBCC_MAGIC, 4)` then
`memcmp(version, OBCC_VERSION, 4)`. -/
def checkHeader (h : OBCC_Header) : Bool :=
  if h.magic.take 4 ≠ OBCC_MAGIC then false
  else if h.version.take 4 ≠ OBCC_VERSION then false
  else true

/-- Check `CacheReader::checkMachineIntType`: the endianness tag must be `'e'`
(byte 101) on a little-endian host and `'E'` (byte 69) on a big-endian host,
and the three recorded widths must equal the host's `sizeof(off_t)`,
`sizeof(size_t)`, and `sizeof(void *)`. -/
def checkMachineIntType (m : Machine) (h : OBCC_Header) : Bool :=
  if (m.isLittleEndian = true ∧ h.endianness ≠ 101) ∨
     (m.isLittleEndian = false ∧ h.endianness ≠ 69) then false
  else if h.sizeof_off_t ≠ m.sizeofOffT ∨ h.sizeof_size_t ≠ m.sizeofSizeT ∨
          h.sizeof_ptr_t ≠ m.sizeofPtr then false
  else true

/-- One expansion of the `CHECK_SECTION_OFFSET` macro in
`CacheReader::checkSectionOffsetAndSize`: the section must lie within the
file, its offset must be `sizeof(int)`-aligned, and its size must be at least
`sizeof(size_t)`. -/
def checkSectionOffset (m : Machine) (fileSize offset size : Nat) : Bool :=
  if fileSize < offset ∨ fileSize < offset + size then false
  else if offset % m.sizeofInt ≠ 0 then false
  else if size < m.sizeofSizeT then false
  else true

/-- Check `CacheReader::checkSectionOffsetAndSize`: the `CHECK_SECTION_OFFSET`
macro is expanded for exactly `str_pool`, `depend_tab`, `reloc_tab`,
`export_var_list`, `export_func_list`, and `pragma_list` (the source does not
expand it for `func_table`), followed by the context section's bounds check
and the page-alignment checks of `context_offset` and
`context_cached_addr`. -/
def checkSectionOffsetAndSize (m : Machine) (fileSize : Nat) (h : OBCC_Header) : Bool :=
  checkSectionOffset m fileSize h.str_pool_offset h.str_pool_size &&
  checkSectionOffset m fileSize h.depend_tab_offset h.depend_tab_size &&
  checkSectionOffset m fileSize h.reloc_tab_offset h.reloc_tab_size &&
  checkSectionOffset m fileSize h.export_var_list_offset h.export_var_list_size &&
  checkSectionOffset m fileSize h.export_func_list_offset h.export_func_list_size &&
  checkSectionOffset m fileSize h.pragma_list_offset h.pragma_list_size &&
  (if fileSize < h.context_offset ∨ fileSize < h.context_offset + m.contextSize then false
   else if h.context_offset % m.pagesize ≠ 0 then false
   else if h.context_cached_addr % m.pagesize ≠ 0 then false
   else true)

/-- The running XOR of `CacheReader::checkContext`: seeded with the header's
`context_parity_checksum` and folded over the `BCC_CONTEXT_SIZE /
sizeof(uint32_t)` 32-bit words of the loaded context. -/
def ctxSum (seed : Nat) (words : List Nat) : Nat :=
  words.foldl (fun s w => s ^^^ w) seed

/-- Check `CacheReader::checkContext`: succeeds iff the running XOR ends at 0. -/
def checkContext (seed : Nat) (words : List Nat) : Bool :=
  ctxSum seed words == 0

/-- The fifteen conjuncts of the `&&` chain in `CacheReader::readCacheFile`,
in source order. -/
inductive Step where
  | fileSizeChk
  | readHeaderStep
  | headerChk
  | machineIntChk
  | sectionChk
  | readStrPoolStep
  | strPoolChk
  | readDependStep
  | dependencyChk
  | exportVarStep
  | exportFuncStep
  | pragmaStep
  | funcTableStep
  | readContextStep
  | contextChk
deriving Repr, DecidableEq

/-- The state of one `readCacheFile` call: the machine parameters, the file
handle (`none` models a NULL `FileHandle *`, the integer is `getFD()`), the
success of the `ScriptCached` allocation, the `fstat` outcome and file size,
the parsed header, the contents each section parses to, the caller's expected
dependencies (`mDependencies`, in its ascending-name iteration order), the
loaded context words, and one Boolean per I/O step (seek / allocation / full
read of a section, `allocateContext` success) that the environment decides. -/
structure CacheEnv where
  machine : Machine
  file : Option Int
  allocOk : Bool
  statOk : Bool
  fileSize : Nat
  header : OBCC_Header
  readHeaderOk : Bool
  readStrPoolOk : Bool
  strPool : StrPool
  readDependOk : Bool
  dependTab : List OBCC_Dependency
  expectedDeps : List (List Nat × Nat × List Nat)
  readExportVarOk : Bool
  readExportFuncOk : Bool
  readPragmaOk : Bool
  pragmaTab : List OBCC_Pragma
  readFuncTabOk : Bool
  funcTab : List OBCC_FuncInfo
  allocContextOk : Bool
  contextWords : List Nat
deriving Repr, DecidableEq

/-- The check each pipeline step performs, translated from the corresponding
`CacheReader` member function (pure I/O steps are the environment's success
Booleans). -/
def stepCheck (s : Step) (e : CacheEnv) : Bool :=
  match s with
  | Step.fileSizeChk => checkFileSize e.machine e.statOk e.fileSize
  | Step.readHeaderStep => e.readHeaderOk
  | Step.headerChk => checkHeader e.header
  | Step.machineIntChk => checkMachineIntType e.machine e.header
  | Step.sectionChk => checkSectionOffsetAndSize e.machine e.fileSize e.header
  | Step.readStrPoolStep => e.readStrPoolOk
  | Step.strPoolChk => checkStringPool e.strPool
  | Step.readDependStep => e.readDependOk
  | Step.dependencyChk => checkDependency e.strPool e.expectedDeps e.dependTab
  | Step.exportVarStep => e.readExportVarOk
  | Step.exportFuncStep => e.readExportFuncOk
  | Step.pragmaStep => e.readPragmaOk
  | Step.funcTableStep => e.readFuncTabOk
  | Step.readContextStep => e.allocContextOk
  | Step.contextChk => checkContext e.header.context_parity_checksum e.contextWords

/-- The fixed order of the `&&` chain in `CacheReader::readCacheFile`:
`checkFileSize`, `readHeader`, `checkHeader`, `checkMachineIntType`,
`checkSectionOffsetAndSize`, `readStringPool`, `checkStringPool`,
`readDependencyTable`, `checkDependency`, `readExportVarList`,
`readExportFuncList`, `readPragmaList`, `readFuncTable`, `readContext`,
`checkContext`. -/
def pipeline : List Step :=
  [Step.fileSizeChk, Step.readHeaderStep, Step.headerChk, Step.machineIntChk,
   Step.sectionChk, Step.readStrPoolStep, Step.strPoolChk, Step.readDependStep,
   Step.dependencyChk, Step.exportVarStep, Step.exportFuncStep, Step.pragmaStep,
   Step.funcTableStep, Step.readContextStep, Step.contextChk]

/-- The `ScriptCached` artifact as far as this reader populates it: the
materialized string pool, the resolved pragma pairs, the function-name map,
and the context load address. -/
structure ScriptCached where
  stringPool : List (List Nat)
  pragmas : List (List Nat × List Nat)
  functions : List (List Nat × Nat × Nat)
  contextAddr : Nat
deriving Repr, DecidableEq

/-- The artifact `readCacheFile` hands back when every step succeeded. -/
def mkArtifact (e : CacheEnv) : ScriptCached :=
  { stringPool := e.strPool.entries.map (fun en => cstrFrom e.strPool en.offset)
  , pragmas := buildPragmas e.strPool e.pragmaTab
  , functions := buildFuncTable e.strPool e.funcTab
  , contextAddr := e.header.context_cached_addr }

/-- Function lookup on the artifact (`std::map::find`). -/
def lookupFunction (a : ScriptCached) (name : List Nat) : Option (Nat × Nat) :=
  a.functions.lookup name

/-- How one `readCacheFile` call ends: `badHandle` is the early
`!file || file->getFD() < 0` return (before the `ScriptCached` allocation and
before any check runs), `allocFail` the failed `new (nothrow) ScriptCached`,
`checkFail s` a pipeline stopped at its first failing step `s`, and `ok` the
successful hand-over of the artifact. -/
inductive OpenOutcome where
  | badHandle
  | allocFail
  | checkFail (s : Step)
  | ok (a : ScriptCached)
deriving Repr, DecidableEq

/-- Orchestrator `CacheReader::readCacheFile`, with the outcome kept explicit: the file
handle is checked first, then the `ScriptCached` allocation, then the
short-circuited `&&` chain runs the pipeline in order and stops at the first
failing step. -/
def openOutcome (e : CacheEnv) : OpenOutcome :=
  match e.file with
  | none => OpenOutcome.badHandle
  | some fd =>
    if fd < 0 then OpenOutcome.badHandle
    else if e.allocOk then
      match pipeline.find? (fun s => !stepCheck s e) with
      | some s => OpenOutcome.checkFail s
      | none => OpenOutcome.ok (mkArtifact e)
    else OpenOutcome.allocFail

/-- Return value of `CacheReader::readCacheFile`: the artifact on success,
`NULL` otherwise. -/
def readCacheFile (e : CacheEnv) : Option ScriptCached :=
  match openOutcome e with
  | OpenOutcome.ok a => some a
  | _ => none

/-! ### Helper lemmas -/

theorem ctxSum_shift (m : Nat) : ∀ (l : List Nat) (a : Nat),
    ctxSum (a ^^^ m) l = ctxSum a l ^^^ m := by
  intro l
  induction l with
  | nil => intro a; rfl
  | cons w ws ih =>
    intro a
    simp only [ctxSum, List.foldl_cons] at ih ⊢
    have h1 : (a ^^^ m) ^^^ w = (a ^^^ w) ^^^ m := by
      rw [Nat.xor_assoc, Nat.xor_assoc, Nat.xor_comm m w]
    rw [h1, ih]

theorem ctxSum_set (m : Nat) : ∀ (ws : List Nat) (i : Nat), i < ws.length →
    ∀ cs, ctxSum cs (ws.set i (ws.getD i 0 ^^^ m)) = ctxSum cs ws ^^^ m := by
  intro ws
  induction ws with
  | nil => intro i h; simp at h
  | cons w ws ih =>
    intro i hi cs
    cases i with
    | zero =>
      simp only [List.getD_cons_zero, List.set_cons_zero]
      simp only [ctxSum, List.foldl_cons]
      have h1 : cs ^^^ (w ^^^ m) = (cs ^^^ w) ^^^ m := by
        rw [Nat.xor_assoc]
      rw [h1]
      exact ctxSum_shift m ws (cs ^^^ w)
    | succ i =>
      simp only [List.getD_cons_succ, List.set_cons_succ]
      simp only [ctxSum, List.foldl_cons]
      exact ih i (by simpa using hi) (cs ^^^ w)

theorem openOutcome_pipeline (e : CacheEnv) (fd : Int)
    (hf : e.file = some fd) (hfd : ¬ fd < 0) (ha : e.allocOk = true) :
    openOutcome e =
      (match pipeline.find? (fun s => !stepCheck s e) with
       | some s => OpenOutcome.checkFail s
       | none => OpenOutcome.ok (mkArtifact e)) := by
  unfold openOutcome
  rw [hf]
  simp only [if_neg hfd, ha, if_true]

theorem readCacheFile_none_of_step_false (e : CacheEnv) (s : Step)
    (hs : s ∈ pipeline) (hfail : stepCheck s e = false) :
    readCacheFile e = none := by
  unfold readCacheFile openOutcome
  cases hfile : e.file with
  | none => rfl
  | some fd =>
    by_cases hfd : fd < 0
    · simp only [if_pos hfd]
    · simp only [if_neg hfd]
      cases ha : e.allocOk with
      | false => simp only [Bool.false_eq_true, if_false]
      | true =>
        simp only [if_true]
        cases hfind : pipeline.find? (fun t => !stepCheck t e) with
        | some t => rfl
        | none =>
          exfalso
          have := List.find?_eq_none.mp hfind s hs
          simp [hfail] at this

theorem readCacheFile_isSome_iff (e : CacheEnv) (fd : Int)
    (hf : e.file = some fd) (hfd : ¬ fd < 0) (ha : e.allocOk = true) :
    (readCacheFile e).isSome = true ↔ ∀ s ∈ pipeline, stepCheck s e = true := by
  constructor
  · intro hsome s hs
    by_contra hfail
    have hfail' : stepCheck s e = false := by
      cases h : stepCheck s e
      · rfl
      · exact absurd h hfail
    rw [readCacheFile_none_of_step_false e s hs hfail'] at hsome
    simp at hsome
  · intro hall
    have hfind : pipeline.find? (fun s => !stepCheck s e) = none := by
      rw [List.find?_eq_none]
      intro s hs
      simp [hall s hs]
    unfold readCacheFile
    rw [openOutcome_pipeline e fd hf hfd ha, hfind]
    rfl

theorem checkFail_first (e : CacheEnv) (s : Step)
    (h : openOutcome e = OpenOutcome.checkFail s) :
    stepCheck s e = false ∧
      ∃ l₁ l₂, pipeline = l₁ ++ s :: l₂ ∧ ∀ t ∈ l₁, stepCheck t e = true := by
  have hfind : pipeline.find? (fun t => !stepCheck t e) = some s := by
    unfold openOutcome at h
    cases hfile : e.file with
    | none => rw [hfile] at h; simp at h
    | some fd =>
      rw [hfile] at h
      dsimp only at h
      by_cases hfd : fd < 0
      · rw [if_pos hfd] at h; simp at h
      · rw [if_neg hfd] at h
        cases ha : e.allocOk with
        | false => rw [ha] at h; simp at h
        | true =>
          rw [ha] at h
          simp only [if_true] at h
          cases hf : pipeline.find? (fun t => !stepCheck t e) with
          | some t =>
            rw [hf] at h
            cases h
            rfl
          | none => rw [hf] at h; simp at h
  obtain ⟨hp, l₁, l₂, hsplit, hprev⟩ := List.find?_eq_some.mp hfind
  refine ⟨by simpa using hp, l₁, l₂, hsplit, ?_⟩
  intro t ht
  have := hprev t ht
  simpa using this

theorem checkStringPoolFrom_none (p : StrPool) :
    ∀ (l : List OBCC_StringPoolEntry) (i : Nat),
      checkStringPoolFrom p i l = none ↔ ∀ en ∈ l, poolEntryBad p en = false := by
  intro l
  induction l with
  | nil => intro i; simp [checkStringPoolFrom]
  | cons en rest ih =>
    intro i
    simp only [checkStringPoolFrom]
    cases hb : poolEntryBad p en with
    | true => simp [hb]
    | false => simp [hb, ih (i + 1)]

theorem checkStringPoolFrom_some (p : StrPool) :
    ∀ (l : List OBCC_StringPoolEntry) (i k : Nat),
      checkStringPoolFrom p i l = some k →
      i ≤ k ∧ (∃ en, l.get? (k - i) = some en ∧ poolEntryBad p en = true) ∧
        ∀ j en, j < k - i → l.get? j = some en → poolEntryBad p en = false := by
  intro l
  induction l with
  | nil => intro i k h; simp [checkStringPoolFrom] at h
  | cons en rest ih =>
    intro i k h
    simp only [checkStringPoolFrom] at h
    cases hb : poolEntryBad p en with
    | true =>
      rw [hb] at h
      simp only [if_true] at h
      cases h
      refine ⟨Nat.le_refl i, ⟨en, by simp, hb⟩, ?_⟩
      intro j en' hj
      simp [Nat.sub_self] at hj
    | false =>
      rw [hb] at h
      simp only [Bool.false_eq_true, if_false] at h
      obtain ⟨hik, ⟨en', hget, hbad⟩, hprev⟩ := ih (i + 1) k h
      have hik' : i ≤ k := by omega
      have hsub : k - i = (k - (i + 1)) + 1 := by omega
      refine ⟨hik', ⟨en', ?_, hbad⟩, ?_⟩
      · rw [hsub]
        simpa using hget
      · intro j enJ hj hget'
        cases j with
        | zero =>
          simp only [List.get?_cons_zero, Option.some.injEq] at hget'
          subst hget'
          exact hb
        | succ j =>
          refine hprev j enJ (by omega) (by simpa using hget')

theorem depMatches_iff (pool : StrPool) (exp : List Nat × Nat × List Nat)
    (c : OBCC_Dependency) :
    depMatches pool exp c = true ↔
      strAt pool c.res_name_strp_index = exp.1 ∧
        c.sha1.take 20 = exp.2.2.take 20 ∧ c.res_type = exp.2.1 := by
  unfold depMatches
  split_ifs with h1 h2 h3 <;> simp_all

theorem zip_all_get (pool : StrPool) :
    ∀ (exp : List (List Nat × Nat × List Nat)) (tab : List OBCC_Dependency),
      ((exp.zip tab).all (fun pr => depMatches pool pr.1 pr.2) = true) ↔
      ∀ i e c, exp.get? i = some e → tab.get? i = some c →
        depMatches pool e c = true := by
  intro exp
  induction exp with
  | nil => intro tab; simp
  | cons e es ih =>
    intro tab
    cases tab with
    | nil => simp
    | cons c cs =>
      simp only [List.zip_cons_cons, List.all_cons, Bool.and_eq_true, ih cs]
      constructor
      · rintro ⟨h0, hrest⟩ i e' c' he hc
        cases i with
        | zero =>
          simp only [List.get?_cons_zero, Option.some.injEq] at he hc
          subst he; subst hc
          exact h0
        | succ i => exact hrest i e' c' (by simpa using he) (by simpa using hc)
      · intro h
        exact ⟨h 0 e c rfl rfl,
          fun i e' c' he hc => h (i + 1) e' c' (by simpa using he) (by simpa using hc)⟩

/-- The first record of the function table whose resolved name is `k`,
mapped to its `(cached_addr, size)` pair. -/
def funcFind (pool : StrPool) (records : List OBCC_FuncInfo) (k : List Nat) :
    Option (Nat × Nat) :=
  (records.find? (fun r => strAt pool r.name_strp_index == k)).map
    (fun r => (r.cached_addr, r.size))

theorem buildFuncTable_lookup_aux (pool : StrPool) :
    ∀ (rs : List OBCC_FuncInfo) (m : List (List Nat × Nat × Nat)) (k : List Nat),
      ((rs.foldl
          (fun m r => stdMapInsert m (strAt pool r.name_strp_index, r.cached_addr, r.size))
          m).lookup k)
        = (m.lookup k).or (funcFind pool rs k) := by
  intro rs
  induction rs with
  | nil =>
    intro m k
    simp [funcFind]
  | cons r rs ih =>
    intro m k
    simp only [List.foldl_cons, ih]
    by_cases hk : (strAt pool r.name_strp_index == k) = true
    · have hkeq : strAt pool r.name_strp_index = k := eq_of_beq hk
      have hfind : funcFind pool (r :: rs) k = some (r.cached_addr, r.size) := by
        simp [funcFind, List.find?_cons_of_pos, hk]
      rw [hfind]
      unfold stdMapInsert
      by_cases hm : (m.lookup (strAt pool r.name_strp_index, r.cached_addr, r.size).1).isSome
      · rw [if_pos hm]
        simp only at hm
        rw [hkeq] at hm
        obtain ⟨w, hw⟩ := Option.isSome_iff_exists.mp hm
        rw [hw]
        simp [Option.or]
      · rw [if_neg hm]
        simp only at hm
        rw [hkeq] at hm
        have hmk : m.lookup k = none := Option.not_isSome_iff_eq_none.mp hm
        rw [List.lookup_append, hmk]
        simp only [Option.none_or]
        have : ([((strAt pool r.name_strp_index : List Nat), r.cached_addr, r.size)].lookup k)
            = some (r.cached_addr, r.size) := by
          rw [hkeq]
          simp
        rw [this]
        simp [Option.or]
    · have hfind : funcFind pool (r :: rs) k = funcFind pool rs k := by
        simp only [funcFind]
        rw [List.find?_cons_of_neg _ (by simp [hk])]
      rw [hfind]
      unfold stdMapInsert
      by_cases hm : (m.lookup (strAt pool r.name_strp_index, r.cached_addr, r.size).1).isSome
      · rw [if_pos hm]
      · rw [if_neg hm]
        rw [List.lookup_append]
        have hne : (k == strAt pool r.name_strp_index) = false := by
          cases hkk : (k == strAt pool r.name_strp_index)
          · rfl
          · exact absurd (by rw [eq_of_beq hkk]; exact beq_self_eq_true _) hk
        have : ([((strAt pool r.name_strp_index : List Nat), r.cached_addr, r.size)].lookup k)
            = none := by
          simp [List.lookup, hne]
        rw [this]
        simp [Option.or_assoc]

theorem checkFail_find (e : CacheEnv) (s : Step)
    (h : openOutcome e = OpenOutcome.checkFail s) :
    pipeline.find? (fun t => !stepCheck t e) = some s := by
  unfold openOutcome at h
  cases hfile : e.file with
  | none => rw [hfile] at h; simp at h
  | some fd =>
    rw [hfile] at h
    dsimp only at h
    by_cases hfd : fd < 0
    · rw [if_pos hfd] at h; simp at h
    · rw [if_neg hfd] at h
      cases ha : e.allocOk with
      | false => rw [ha] at h; simp at h
      | true =>
        rw [ha] at h
        simp only [if_true] at h
        cases hf : pipeline.find? (fun t => !stepCheck t e) with
        | some t =>
          rw [hf] at h
          cases h
          rfl
        | none => rw [hf] at h; simp at h

/-! ### Concrete instances -/

/-- A 32-bit little-endian host with 4 KiB pages; `sizeof(OBCC_Header)` and
`BCC_CONTEXT_SIZE` are the model's fixed header and context sizes. -/
def machine0 : Machine :=
  { isLittleEndian := true, sizeofOffT := 4, sizeofSizeT := 4, sizeofPtr := 4,
    sizeofInt := 4, pagesize := 4096, sizeofHeader := 128, contextSize := 16 }

/-- A concrete 20-byte fingerprint. -/
def sha0 : List Nat := List.replicate 20 7

/-- A fully valid header for `machine0` and a file of 8192 bytes. -/
def header0 : OBCC_Header :=
  { magic := [111, 66, 67, 67], version := [48, 48, 49, 0], endianness := 101,
    sizeof_off_t := 4, sizeof_size_t := 4, sizeof_ptr_t := 4,
    context_cached_addr := 8192, context_offset := 4096, context_parity_checksum := 0,
    str_pool_offset := 128, str_pool_size := 8,
    depend_tab_offset := 136, depend_tab_size := 48,
    reloc_tab_offset := 184, reloc_tab_size := 4,
    export_var_list_offset := 188, export_var_list_size := 4,
    export_func_list_offset := 192, export_func_list_size := 4,
    pragma_list_offset := 196, pragma_list_size := 4,
    func_table_offset := 200, func_table_size := 4 }

/-- A one-entry string pool holding `"foo"`. -/
def pool0 : StrPool :=
  { entries := [{ offset := 0, length := 3 }], bytes := [102, 111, 111, 0],
    junkByte := 0, junkStr := [] }

/-- The caller's expected dependency set: one dependency `("foo", 1, sha0)`. -/
def expected0 : List (List Nat × Nat × List Nat) := [([102, 111, 111], 1, sha0)]

/-- The matching cached dependency table. -/
def dependTab0 : List OBCC_Dependency :=
  [{ res_name_strp_index := 0, res_type := 1, sha1 := sha0 }]

/-- An environment in which every one of the fifteen checks succeeds. -/
def goodEnv : CacheEnv :=
  { machine := machine0, file := some 3, allocOk := true, statOk := true,
    fileSize := 8192, header := header0, readHeaderOk := true,
    readStrPoolOk := true, strPool := pool0, readDependOk := true,
    dependTab := dependTab0, expectedDeps := expected0,
    readExportVarOk := true, readExportFuncOk := true, readPragmaOk := true,
    pragmaTab := [], readFuncTabOk := true,
    funcTab := [{ name_strp_index := 0, cached_addr := 4096, size := 64 }],
    allocContextOk := true, contextWords := [1, 2, 3, 0] }

/-- Header `header0` with a function-table section that breaks every per-section
rule: zero size (below one word) and a misaligned offset. -/
def header3 : OBCC_Header :=
  { header0 with func_table_offset := 202, func_table_size := 0 }

/-- Environment `goodEnv` with a pragma record whose key string-pool index (50) is far
out of range for the one-entry pool. -/
def c2env : CacheEnv :=
  { goodEnv with pragmaTab := [{ key_strp_index := 50, value_strp_index := 0 }] }

/-- A pool whose entries 1 and 2 lack the `'\0'` terminator. -/
def badPool : StrPool :=
  { entries := [{ offset := 0, length := 3 }, { offset := 0, length := 2 },
                { offset := 1, length := 1 }],
    bytes := [102, 111, 111, 0], junkByte := 0, junkStr := [] }

/-- Environment `goodEnv` for a file of only 5 bytes. -/
def e8 : CacheEnv := { goodEnv with fileSize := 5 }

/-- Environment `goodEnv` with a NULL file handle. -/
def e10 : CacheEnv := { goodEnv with file := none }

/-- Environment `goodEnv` with a header carrying the big-endian tag on the little-endian
`machine0`. -/
def envBadEndian : CacheEnv :=
  { goodEnv with header := { header0 with endianness := 69 } }

/-- A function table with two records resolving to the same name `"foo"`. -/
def dupFuncTab : List OBCC_FuncInfo :=
  [{ name_strp_index := 0, cached_addr := 4096, size := 64 },
   { name_strp_index := 0, cached_addr := 8192, size := 32 }]

/-! ### Claim theorems -/

/-- C1: with a valid file handle and a successful `ScriptCached` allocation,
`readCacheFile` returns a non-null artifact iff every one of the fifteen
ordered checks of the pipeline (file size, header read, magic/version,
machine endianness and word sizes, section bounds, string pool read and
validation, dependency table read and match, export-var list, export-func
list, pragma list, function table, context load, context checksum) succeeds;
the pipeline runs in exactly the order of `pipeline` and stops at its first
failing step, in which case `NULL` is returned and no artifact escapes. -/
theorem readCacheFile_ok_iff_pipeline (e : CacheEnv) (fd : Int)
    (hf : e.file = some fd) (hfd : ¬ fd < 0) (ha : e.allocOk = true) :
    ((readCacheFile e).isSome = true ↔ ∀ s ∈ pipeline, stepCheck s e = true)
    ∧ (∀ s, openOutcome e = OpenOutcome.checkFail s →
        readCacheFile e = none ∧ stepCheck s e = false ∧
        ∃ l₁ l₂, pipeline = l₁ ++ s :: l₂ ∧ ∀ t ∈ l₁, stepCheck t e = true) := by
  refine ⟨readCacheFile_isSome_iff e fd hf hfd ha, ?_⟩
  intro s hs
  obtain ⟨hfail, l₁, l₂, hsplit, hprev⟩ := checkFail_first e s hs
  refine ⟨?_, hfail, l₁, l₂, hsplit, hprev⟩
  unfold readCacheFile
  rw [hs]

/-- Witness for C1: on `goodEnv`, every check passes and an artifact is
returned. -/
theorem readCacheFile_ok_iff_pipeline_witness :
    (readCacheFile goodEnv).isSome = true :=
  (readCacheFile_ok_iff_pipeline goodEnv 3 rfl (by decide) rfl).1.mpr (by decide)

/-- C2: contrary to the claim, no string-pool index of a dependency, pragma,
or function-table record is ever validated: `c2env` carries a pragma record
whose key index 50 is out of range for its one-entry pool, yet the open
succeeds (the unchecked `std::vector::operator[]` read is undefined
behaviour, modelled by the pool's unspecified junk value); likewise
`checkDependency` accepts a record whose name index 99 is out of range
whenever the junk value happens to match the expected name. -/
theorem stringPoolIndex_not_validated :
    c2env.strPool.entries.length ≤ 50 ∧
      (readCacheFile c2env).isSome = true ∧
      checkDependency pool0 [([], 1, sha0)]
        [{ res_name_strp_index := 99, res_type := 1, sha1 := sha0 }] = true := by
  decide

/-- C3: contrary to the claim, `checkSectionOffsetAndSize` never examines the
function table's offset and size: `header3` declares a `func_table` section
of size zero (below one machine word) at a misaligned offset, yet the check
succeeds. -/
theorem sectionCheck_skips_func_table :
    header3.func_table_size = 0 ∧
      header3.func_table_size < machine0.sizeofSizeT ∧
      header3.func_table_offset % machine0.sizeofInt ≠ 0 ∧
      checkSectionOffsetAndSize machine0 8192 header3 = true := by
  decide

/-- C4: `checkDependency` returns true iff the cached table's record count
equals the expected dependency count and, in lock-step over both sequences,
every cached record's pool-resolved name, 20-byte fingerprint, and type tag
equal the expected ones. -/
theorem checkDependency_spec (pool : StrPool)
    (expected : List (List Nat × Nat × List Nat)) (table : List OBCC_Dependency) :
    checkDependency pool expected table = true ↔
      expected.length = table.length ∧
      ∀ i e c, expected.get? i = some e → table.get? i = some c →
        strAt pool c.res_name_strp_index = e.1 ∧
          c.sha1.take 20 = e.2.2.take 20 ∧ c.res_type = e.2.1 := by
  unfold checkDependency
  split_ifs with hlen
  · constructor
    · intro h; simp at h
    · intro h; exact absurd h.1 hlen
  · push_neg at hlen
    rw [zip_all_get pool expected table]
    constructor
    · intro h
      exact ⟨hlen, fun i e c he hc => (depMatches_iff pool e c).mp (h i e c he hc)⟩
    · rintro ⟨-, h⟩ i e c he hc
      exact (depMatches_iff pool e c).mpr (h i e c he hc)

/-- Witness for C4: the concrete matching pair passes, so the counts are
equal. -/
theorem checkDependency_spec_witness : expected0.length = dependTab0.length :=
  ((checkDependency_spec pool0 expected0 dependTab0).mp (by decide)).1

/-- C5: `checkContext` succeeds exactly when the XOR-fold of the context
words seeded with the stored parity checksum is zero; flipping any single bit
of any context word of a passing context makes it fail. -/
theorem checkContext_spec (cs : Nat) (ws : List Nat) :
    (checkContext cs ws = true ↔ ctxSum cs ws = 0)
    ∧ (∀ i b, i < ws.length → b < 32 → checkContext cs ws = true →
        checkContext cs (ws.set i (ws.getD i 0 ^^^ 2 ^ b)) = false) := by
  constructor
  · simp [checkContext]
  · intro i b hi hb hok
    have h0 : ctxSum cs ws = 0 := by simpa [checkContext] using hok
    have hset := ctxSum_set (2 ^ b) ws i hi cs
    rw [h0] at hset
    simp only [Nat.zero_xor] at hset
    simp only [checkContext, hset]
    have hpos : (0 : Nat) < 2 ^ b := Nat.pos_pow_of_pos b (by omega)
    simpa using Nat.ne_of_gt hpos

/-- Witness for C5: flipping bit 0 of word 0 of the passing context
`[1, 2, 3, 0]` (checksum 0) fails the check. -/
theorem checkContext_spec_witness :
    checkContext 0 ([1, 2, 3, 0].set 0 (([1, 2, 3, 0].getD 0 0) ^^^ 2 ^ 0)) = false :=
  (checkContext_spec 0 [1, 2, 3, 0]).2 0 0 (by decide) (by decide) (by decide)

/-- C6: `checkStringPool` succeeds iff every entry's byte at
`offset + length` in the pool blob is the `'\0'` terminator, and on failure
the reported index is the first (lowest-index) entry violating this. -/
theorem checkStringPool_spec (p : StrPool) :
    (checkStringPool p = true ↔
      ∀ en ∈ p.entries, byteAt p (en.offset + en.length) = 0)
    ∧ (∀ k, checkStringPoolReport p = some k →
        (∃ en, p.entries.get? k = some en ∧ byteAt p (en.offset + en.length) ≠ 0)
        ∧ ∀ j en, j < k → p.entries.get? j = some en →
            byteAt p (en.offset + en.length) = 0) := by
  constructor
  · unfold checkStringPool checkStringPoolReport
    rw [Option.isNone_iff_eq_none, checkStringPoolFrom_none]
    constructor
    · intro h en hen
      have := h en hen
      simpa [poolEntryBad] using this
    · intro h en hen
      simp [poolEntryBad, h en hen]
  · intro k hk
    unfold checkStringPoolReport at hk
    obtain ⟨-, ⟨en, hget, hbad⟩, hprev⟩ := checkStringPoolFrom_some p p.entries 0 k hk
    simp only [Nat.sub_zero] at hget hprev
    refine ⟨⟨en, hget, by simpa [poolEntryBad] using hbad⟩, ?_⟩
    intro j en' hj hget'
    have := hprev j en' hj hget'
    simpa [poolEntryBad] using this

/-- Witness for C6: on `badPool` the reported index is 1: entry 1 is bad and
entry 0 before it is good. -/
theorem checkStringPool_spec_witness :
    (∃ en, badPool.entries.get? 1 = some en ∧
        byteAt badPool (en.offset + en.length) ≠ 0) ∧
      ∀ j en, j < 1 → badPool.entries.get? j = some en →
        byteAt badPool (en.offset + en.length) = 0 :=
  (checkStringPool_spec badPool).2 1 (by decide)

/-- C7: `checkMachineIntType` succeeds iff the endianness tag matches the
host's native byte order (`'e'` = 101 little, `'E'` = 69 big) and all three
recorded widths equal the host's; whenever it fails, the open returns `NULL`
and the first failing pipeline step lies at or before the machine check, so
no section is ever read. -/
theorem checkMachineIntType_spec (m : Machine) (h : OBCC_Header) :
    (checkMachineIntType m h = true ↔
      h.endianness = (if m.isLittleEndian then 101 else 69) ∧
        h.sizeof_off_t = m.sizeofOffT ∧ h.sizeof_size_t = m.sizeofSizeT ∧
          h.sizeof_ptr_t = m.sizeofPtr)
    ∧ ∀ e : CacheEnv, checkMachineIntType e.machine e.header = false →
        readCacheFile e = none ∧
        ∀ s, openOutcome e = OpenOutcome.checkFail s →
          s ∈ [Step.fileSizeChk, Step.readHeaderStep, Step.headerChk,
               Step.machineIntChk] := by
  constructor
  · unfold checkMachineIntType
    cases hle : m.isLittleEndian with
    | true => split_ifs with h1 h2 <;> simp_all <;> tauto
    | false => split_ifs with h1 h2 <;> simp_all <;> tauto
  · intro e hm
    have hmem : Step.machineIntChk ∈ pipeline := by decide
    have hfail : stepCheck Step.machineIntChk e = false := hm
    refine ⟨readCacheFile_none_of_step_false e Step.machineIntChk hmem hfail, ?_⟩
    intro s hs
    have hfind := checkFail_find e s hs
    have hsplit4 : pipeline =
        [Step.fileSizeChk, Step.readHeaderStep, Step.headerChk, Step.machineIntChk]
          ++ [Step.sectionChk, Step.readStrPoolStep, Step.strPoolChk,
              Step.readDependStep, Step.dependencyChk, Step.exportVarStep,
              Step.exportFuncStep, Step.pragmaStep, Step.funcTableStep,
              Step.readContextStep, Step.contextChk] := rfl
    rw [hsplit4, List.find?_append] at hfind
    cases hfind4 : ([Step.fileSizeChk, Step.readHeaderStep, Step.headerChk,
        Step.machineIntChk].find? (fun t => !stepCheck t e)) with
    | some t =>
      rw [hfind4] at hfind
      simp only [Option.or_some, Option.some.injEq] at hfind
      subst hfind
      exact List.mem_of_find?_eq_some hfind4
    | none =>
      exfalso
      have := List.find?_eq_none.mp hfind4 Step.machineIntChk (by decide)
      simp [hfail] at this

/-- Witness for C7: the matching machine/header pair passes, and an
environment whose header carries the big-endian tag on the little-endian host
is rejected with a null result. -/
theorem checkMachineIntType_spec_witness :
    checkMachineIntType machine0 header0 = true ∧ readCacheFile envBadEndian = none :=
  ⟨(checkMachineIntType_spec machine0 header0).1.mpr (by decide),
    ((checkMachineIntType_spec machine0 header0).2 envBadEndian (by decide)).1⟩

/-- C8: whenever the stat'd file size is below the fixed header size or below
`BCC_CONTEXT_SIZE`, `readCacheFile` returns `NULL`, and the pipeline stops at
the very first step (`checkFileSize`), so no byte of the file is ever
read. -/
theorem smallFile_returns_null (e : CacheEnv)
    (h : e.fileSize < e.machine.sizeofHeader ∨ e.fileSize < e.machine.contextSize) :
    readCacheFile e = none ∧
      ∀ s, openOutcome e = OpenOutcome.checkFail s → s = Step.fileSizeChk := by
  have hfail : stepCheck Step.fileSizeChk e = false := by
    simp only [stepCheck, checkFileSize]
    by_cases h1 : e.statOk = false
    · rw [if_pos h1]
    · rw [if_neg h1, if_pos h]
  have hmem : Step.fileSizeChk ∈ pipeline := by decide
  refine ⟨readCacheFile_none_of_step_false e Step.fileSizeChk hmem hfail, ?_⟩
  intro s hs
  have hfind := checkFail_find e s hs
  have hfirst : pipeline.find? (fun t => !stepCheck t e) = some Step.fileSizeChk := by
    show List.find? _ (Step.fileSizeChk :: _) = _
    exact List.find?_cons_of_pos _ (by simp [hfail])
  rw [hfirst] at hfind
  exact (Option.some.inj hfind).symm

/-- Witness for C8: a 5-byte file is rejected with a null result. -/
theorem smallFile_returns_null_witness : readCacheFile e8 = none :=
  (smallFile_returns_null e8 (Or.inl (by decide))).1

/-- C9: the function-name map keeps the first-seen record for a duplicated
name (`std::map::insert` never overwrites): looking any name up in the built
table yields the `(cached_addr, size)` of the first record resolving to that
name. -/
theorem funcTable_first_wins (pool : StrPool) (records : List OBCC_FuncInfo)
    (name : List Nat) :
    (buildFuncTable pool records).lookup name =
      (records.find? (fun r => strAt pool r.name_strp_index == name)).map
        (fun r => (r.cached_addr, r.size)) := by
  unfold buildFuncTable
  rw [buildFuncTable_lookup_aux pool records [] name]
  simp [funcFind]

/-- Witness for C9: with two records both named `"foo"`, lookup returns the
first record's `(4096, 64)`, not the later `(8192, 32)`. -/
theorem funcTable_first_wins_witness :
    (buildFuncTable pool0 dupFuncTab).lookup [102, 111, 111] = some (4096, 64) := by
  rw [funcTable_first_wins]
  decide

/-- C10: a NULL file handle or a negative file descriptor makes
`readCacheFile` return `NULL` immediately, before the `ScriptCached`
allocation and before any pipeline step runs. -/
theorem nullHandle_returns_null (e : CacheEnv)
    (h : e.file = none ∨ ∃ fd, e.file = some fd ∧ fd < 0) :
    openOutcome e = OpenOutcome.badHandle ∧ readCacheFile e = none := by
  have hout : openOutcome e = OpenOutcome.badHandle := by
    rcases h with h | ⟨fd, hfd, hneg⟩
    · unfold openOutcome
      rw [h]
    · unfold openOutcome
      rw [hfd]
      dsimp only
      rw [if_pos hneg]
  refine ⟨hout, ?_⟩
  unfold readCacheFile
  rw [hout]

/-- Witness for C10: the environment with a NULL handle ends in `badHandle`
with a null result. -/
theorem nullHandle_returns_null_witness :
    openOutcome e10 = OpenOutcome.badHandle ∧ readCacheFile e10 = none :=
  nullHandle_returns_null e10 (Or.inl rfl)

end BccCache
